import Mathlib

/-!
Verification of the goshadertranslator host/guest bridge.

The development shallowly embeds the Go sources (transpiler.go and the shader
result parser) in Lean.  External collaborators of the bridge (the wazero
runtime, the WASM guest module and the Go standard library JSON parser) are
modelled as explicit oracles or parameters; everything the repository itself
computes is translated directly from the source.

Conventions used throughout:
* machine integers are natural numbers, with explicit modulus where the Go
  code converts to uint32;
* Go runtime panics (failed unchecked type assertions) are modelled by the
  Option monad: none means the call panics, it does not return a value;
* fallible operations return Except;
* guest interactions (malloc, write, invoke, free) are recorded as an event
  trace so that frame claims about the sequence of guest calls can be stated.
-/

/-- Modulus of the uint32 conversions performed by the Go code. -/
def u32Mod : ℕ := 4294967296

/-- Subtraction of uint32 values as performed by Go: wraparound modulo 2 to
the 32. Models the expression mem.Size()-ptr of readStringFromMemory. -/
def sub32 (a b : ℕ) : ℕ := ((a % u32Mod) + u32Mod - (b % u32Mod)) % u32Mod

/-- UTF-8 encoding of one character, as Go produces for a byte slice obtained
from a string. -/
def utf8Char (c : Char) : List ℕ :=
  let n := c.toNat
  if n < 128 then [n]
  else if n < 2048 then [192 + n / 64, 128 + n % 64]
  else if n < 65536 then [224 + n / 4096, 128 + (n / 64) % 64, 128 + n % 64]
  else [240 + n / 262144, 128 + (n / 4096) % 64, 128 + (n / 64) % 64, 128 + n % 64]

/-- Byte content of a Go string: the UTF-8 bytes of its characters. -/
def strBytes (s : String) : List ℕ := (s.data.map utf8Char).flatten

/-- Character of the standard base64 alphabet at a given index. -/
def b64Char (n : ℕ) : Char :=
  "ABCDEFGHIJKLMNOPQRSTUVWXYZabcdefghijklmnopqrstuvwxyz0123456789+/".data.getD n ('A')

/-- Standard base64 encoding with padding, as base64.StdEncoding.EncodeToString
produces in the Go source. -/
def goB64 : List ℕ → List Char
  | [] => []
  | [a] => [b64Char (a / 4), b64Char ((a % 4) * 16), '=', '=']
  | [a, b] => [b64Char (a / 4), b64Char ((a % 4) * 16 + b / 16), b64Char ((b % 16) * 4), '=']
  | a :: b :: c :: rest =>
      b64Char (a / 4) :: b64Char ((a % 4) * 16 + b / 16) ::
      b64Char ((b % 16) * 4 + c / 64) :: b64Char (c % 64) :: goB64 rest

/-- Base64 encoding as a string. -/
def goB64String (bytes : List ℕ) : String := ⟨goB64 bytes⟩

/-- Lowercase hexadecimal digit. -/
def hexDigit (n : ℕ) : Char := "0123456789abcdef".data.getD n ('0')

/-- Escaping of one character by the Go encoding/json string encoder with its
default HTML escaping, as json.Marshal applies to every string field. -/
def goJSONEscapeChar (c : Char) : List Char :=
  if c = '"' then ['\\', '"']
  else if c = '\\' then ['\\', '\\']
  else if c = '<' ∨ c = '>' ∨ c = '&' then
    ['\\', 'u', '0', '0', hexDigit (c.toNat / 16), hexDigit (c.toNat % 16)]
  else if c.toNat < 32 then
    if c = '\n' then ['\\', 'n']
    else if c = '\r' then ['\\', 'r']
    else if c = '\t' then ['\\', 't']
    else ['\\', 'u', '0', '0', hexDigit (c.toNat / 16), hexDigit (c.toNat % 16)]
  else if c.toNat = 8232 ∨ c.toNat = 8233 then
    ['\\', 'u', '2', '0', '2', hexDigit (c.toNat % 16)]
  else [c]

/-- Go JSON escaping of a whole string (content between the quotes). -/
def goJSONEscape (s : String) : String := ⟨(s.data.map goJSONEscapeChar).flatten⟩

/-- Quoted JSON string literal for a Go string value. -/
def jstr (s : String) : String := "\"" ++ goJSONEscape s ++ "\""

/-- JSON literal of a Go bool. -/
def jbool (b : Bool) : String := if b then ("true") else ("false")

/-- Translation request parameters, mirroring struct TranslateRequestParams of
transpiler.go, with its JSON field tags fixed by the source.  The Go field
CompileOptions is a map from string to bool; json.Marshal emits map keys in
sorted order, so the embedding carries the sorted association list. -/
structure TranslateRequestParams where
  shaderCodeBase64 : String
  shaderType : String
  spec : String
  output : String
  printActiveVariables : Bool
  compileOptions : List (String × Bool)

/-- Envelope struct JSONRPCRequest of transpiler.go.  The source ID field is a
Go int that only ever holds 1; it is modelled as a natural number. -/
structure JSONRPCRequest where
  jsonrpc : String
  id : ℕ
  method : String
  params : TranslateRequestParams

/-- Serialization of the compile options map: a JSON object of booleans, keys
in the order of the (sorted) association list. -/
def marshalBoolObj (l : List (String × Bool)) : String :=
  "\x7b" ++ String.intercalate (",") (l.map fun kv => jstr kv.1 ++ ":" ++ jbool kv.2) ++ "\x7d"

/-- Serialization of TranslateRequestParams by json.Marshal: struct fields in
declaration order with their tag names. -/
def marshalParams (p : TranslateRequestParams) : String :=
  "\x7b\"shader_code_base64\":" ++ jstr p.shaderCodeBase64 ++
  ",\"shader_type\":" ++ jstr p.shaderType ++
  ",\"spec\":" ++ jstr p.spec ++
  ",\"output\":" ++ jstr p.output ++
  ",\"print_active_variables\":" ++ jbool p.printActiveVariables ++
  ",\"compile_options\":" ++ marshalBoolObj p.compileOptions ++ "\x7d"

/-- Serialization of the JSONRPCRequest envelope by json.Marshal. -/
def marshalJSONRPCRequest (r : JSONRPCRequest) : String :=
  "\x7b\"jsonrpc\":" ++ jstr r.jsonrpc ++
  ",\"id\":" ++ Nat.repr r.id ++
  ",\"method\":" ++ jstr r.method ++
  ",\"params\":" ++ marshalParams r.params ++ "\x7d"

/-- Request payload built by TranslateShader: base64 of the shader source and
the fixed envelope fields, exactly as in transpiler.go lines 157-170. -/
def buildRequest (shaderCode shaderType spec output : String) : JSONRPCRequest :=
  { jsonrpc := "2.0"
    id := 1
    method := "translate"
    params :=
      { shaderCodeBase64 := goB64String (strBytes shaderCode)
        shaderType := shaderType
        spec := spec
        output := output
        printActiveVariables := true
        compileOptions := [("objectCode", true)] } }

/-- Bytes handed to writeStringToMemory by TranslateShader: the UTF-8 bytes of
the marshalled envelope. -/
def requestBytes (shaderCode shaderType spec output : String) : List ℕ :=
  strBytes (marshalJSONRPCRequest (buildRequest shaderCode shaderType spec output))

/-- JSON values as Go json.Unmarshal produces them inside interface values:
null, bool, float64 numbers (modelled as rationals), string, array, object. -/
inductive JVal where
  | null
  | bool (b : Bool)
  | num (q : ℚ)
  | str (s : String)
  | arr (elems : List JVal)
  | obj (fields : List (String × JVal))

/-- Lookup in a JSON object, modelling a Go map read.  Objects decoded by Go
have one entry per key, so association lists here are assumed key-unique. -/
def jlookup : List (String × JVal) → String → Option JVal
  | [], _ => none
  | kv :: rest, k => if kv.1 = k then some kv.2 else jlookup rest k

/-- Checked type assertion to a JSON object. -/
def asObj : JVal → Option (List (String × JVal))
  | .obj o => some o
  | _ => none

/-- Checked type assertion to a JSON array. -/
def asArr : JVal → Option (List JVal)
  | .arr l => some l
  | _ => none

/-- Checked type assertion to a string. -/
def asStr : JVal → Option String
  | .str s => some s
  | _ => none

/-- Checked type assertion to a bool. -/
def asBool : JVal → Option Bool
  | .bool b => some b
  | _ => none

/-- Checked type assertion to a float64 number. -/
def asNum : JVal → Option ℚ
  | .num q => some q
  | _ => none

/-- Go pattern m, _ := v.(map of string to interface): a failed checked
assertion yields the nil map, whose reads all miss.  The nil map is the empty
association list. -/
def goObjOrNil (v : Option JVal) : List (String × JVal) :=
  match v.bind asObj with
  | some o => o
  | none => []

/-- Go pattern s, _ := v.(string): empty string when the assertion fails. -/
def goStrOrEmpty (v : Option JVal) : String :=
  match v.bind asStr with
  | some s => s
  | none => ""

/-- Go conversion uint(f) of a float64 holding a JSON numeric code: truncation
for the nonnegative in-range values the guest produces (for negative or
out-of-range floats the Go conversion is implementation-defined). -/
def goUint (q : ℚ) : ℕ := q.num.toNat / q.den

/-- Variable metadata entry, struct ShaderVariable of the source. -/
structure ShaderVariable where
  active : Bool
  isRowMajor : Bool
  mappedName : String
  name : String
  precision : ℕ
  staticUse : Bool
  type : ℕ
  category : String
deriving DecidableEq

/-- Result struct Shader of the source.  The Go map field Variables is
modelled as a lookup function from names to entries (the word variables is
reserved in Lean, hence the field name vars). -/
structure Shader where
  code : String
  vars : String → Option ShaderVariable

/-- Go map assignment variables[name] = variable. -/
def mapInsert (m : String → Option ShaderVariable) (k : String) (v : ShaderVariable) :
    String → Option ShaderVariable :=
  fun k2 => if k2 = k then some v else m k2

/-- Parsing of one variable entry by the loop body of newShader.  Every field
is read with an unchecked Go type assertion, so a missing or mistyped field
makes the whole call panic (none).  Numeric codes are narrowed with uint(...)
from float64. -/
def parseVariable (category : String) (variableMap : List (String × JVal)) :
    Option ShaderVariable :=
  match (jlookup variableMap ("active")).bind asBool with
  | none => none
  | some active =>
  match (jlookup variableMap ("is_row_major")).bind asBool with
  | none => none
  | some isRowMajor =>
  match (jlookup variableMap ("mapped_name")).bind asStr with
  | none => none
  | some mappedName =>
  match (jlookup variableMap ("name")).bind asStr with
  | none => none
  | some name =>
  match (jlookup variableMap ("precision_enum")).bind asNum with
  | none => none
  | some precision =>
  match (jlookup variableMap ("static_use")).bind asBool with
  | none => none
  | some staticUse =>
  match (jlookup variableMap ("type_enum")).bind asNum with
  | none => none
  | some type =>
    some
      { active := active
        isRowMajor := isRowMajor
        mappedName := mappedName
        name := name
        precision := goUint precision
        staticUse := staticUse
        type := goUint type
        category := category }

/-- Inner loop of newShader over one category array: entries that are not
objects are skipped (checked assertion with continue), parsed entries are
assigned into the map under their original name; a field panic aborts. -/
def processEntries (category : String) (entries : List JVal)
    (acc : String → Option ShaderVariable) : Option (String → Option ShaderVariable) :=
  match entries with
  | [] => some acc
  | e :: rest =>
    match asObj e with
    | none => processEntries category rest acc
    | some variableMap =>
      match parseVariable category variableMap with
      | none => none
      | some v => processEntries category rest (mapInsert acc v.name v)

/-- Outer loop of newShader over the category map.  The category value is cast
with an unchecked assertion to an array, so a non-array category panics.  Go
iterates the map in unspecified order; the embedding takes the association
list in its given order, and the theorems quantify over that order. -/
def processCategories (cats : List (String × JVal))
    (acc : String → Option ShaderVariable) : Option (String → Option ShaderVariable) :=
  match cats with
  | [] => some acc
  | c :: rest =>
    match asArr c.2 with
    | none => none
    | some entries =>
      match processEntries c.1 entries acc with
      | none => none
      | some acc2 => processCategories rest acc2

/-- Function newShader of the source: reads result and active_variables with
checked assertions (nil map on failure), folds all categories into the
variable map, and reads object_code with an unchecked assertion (panic when
missing or not a string).  none models a Go panic escaping the call. -/
def newShader (response : List (String × JVal)) : Option Shader :=
  match processCategories
      (goObjOrNil (jlookup (goObjOrNil (jlookup response ("result"))) "active_variables"))
      (fun _ => none) with
  | none => none
  | some vs =>
    match (jlookup (goObjOrNil (jlookup response ("result"))) "object_code").bind asStr with
    | none => none
    | some code => some { code := code, vars := vs }

/-- Errors of the bridge.  Each constructor corresponds to one error return of
transpiler.go; goPanic stands for a Go runtime panic escaping TranslateShader
(a crash, not a returned error value). -/
inductive TError where
  | closed
  | mallocCallFailed
  | mallocReturnedNull
  | writeFailed
  | writeNullFailed
  | invokeCallFailed
  | invokeReturnedNull
  | readFailed
  | notNullTerminated
  | unmarshalFailed
  | translationError (message : String) (infoLog : String)
  | goPanic
deriving DecidableEq

/-- Tail of TranslateShader after unmarshalling, transpiler.go lines 201-208:
when the error field holds a JSON object the guest message and the info_log
attached under data are propagated as one error; otherwise newShader parses
the response (a panic there escapes the call). -/
def processResponse (responseMap : List (String × JVal)) : Except TError Shader :=
  match (jlookup responseMap ("error")).bind asObj with
  | some serr =>
    .error (.translationError (goStrOrEmpty (jlookup serr ("message")))
      (goStrOrEmpty (jlookup (goObjOrNil (jlookup serr ("data"))) "info_log")))
  | none =>
    match newShader responseMap with
    | none => .error .goPanic
    | some sh => .ok sh

/-- Guest linear memory: its byte size and content.  Content is a total
function; only indices below size are meaningful. -/
structure GuestMem where
  size : ℕ
  byteAt : ℕ → ℕ

/-- Memory write of wazero: succeeds exactly when the range fits. -/
def memWrite (m : GuestMem) (ptr : ℕ) (data : List ℕ) : Option GuestMem :=
  if ptr + data.length ≤ m.size then
    some ⟨m.size, fun i => if ptr ≤ i ∧ i < ptr + data.length then data.getD (i - ptr) 0 else m.byteAt i⟩
  else none

/-- Single byte write of wazero. -/
def memWriteByte (m : GuestMem) (ptr : ℕ) (b : ℕ) : Option GuestMem :=
  if ptr < m.size then some ⟨m.size, fun i => if i = ptr then b else m.byteAt i⟩ else none

/-- Memory read of wazero: the count bytes from ptr when in range. -/
def memRead (m : GuestMem) (ptr count : ℕ) : Option (List ℕ) :=
  if ptr + count ≤ m.size then
    some ((List.range count).map fun i => m.byteAt (ptr + i))
  else none

/-- Scan of readStringFromMemory for the first zero byte: index of the first
zero of the buffer, none when there is no zero. -/
def scanZero : List ℕ → Option ℕ
  | [] => none
  | b :: rest => if b = 0 then some 0 else (scanZero rest).map (· + 1)

/-- Function readStringFromMemory of transpiler.go: read from ptr to the end
of memory (uint32 subtraction for the count), find the first zero byte, and
return the bytes before it; a missing terminator is a hard failure. -/
def readStringFromMemory (m : GuestMem) (ptr : ℕ) : Except TError (List ℕ) :=
  match memRead m ptr (sub32 m.size ptr) with
  | none => .error .readFailed
  | some memBuffer =>
    match scanZero memBuffer with
    | none => .error .notNullTerminated
    | some i => .ok (memBuffer.take i)

/-- Host calls into the guest, recorded in order. -/
inductive HostEvent where
  | malloc (size : ℕ)
  | write (ptr : ℕ) (data : List ℕ)
  | writeByte (ptr : ℕ) (b : ℕ)
  | invoke (ptr : ℕ)
  | free (ptr : ℕ)
deriving DecidableEq

/-- Behavior of the guest module during one translate call: what its malloc
returns for a requested size, and what its invoke returns (response pointer
and possibly rewritten memory) for a request pointer and the memory at the
time of the call.  Errors of the Except model failed host calls. -/
structure GuestOracle where
  mallocRes : ℕ → Except Unit ℕ
  invokeRes : ℕ → GuestMem → Except Unit (ℕ × GuestMem)

/-- Function writeStringToMemory of transpiler.go: one guest allocation of
size len(data)+1, write of the bytes at the returned offset (uint32), then the
null terminator.  The pointer is returned untruncated, as in the source. -/
def writeStringToMemory (o : GuestOracle) (m : GuestMem) (data : List ℕ) :
    Except TError (ℕ × GuestMem) × List HostEvent :=
  match o.mallocRes (data.length + 1) with
  | .error _ => (.error .mallocCallFailed, [.malloc (data.length + 1)])
  | .ok ptr =>
    if ptr = 0 then (.error .mallocReturnedNull, [.malloc (data.length + 1)])
    else
      match memWrite m (ptr % u32Mod) data with
      | none => (.error .writeFailed, [.malloc (data.length + 1), .write (ptr % u32Mod) data])
      | some m2 =>
        match memWriteByte m2 ((ptr + data.length) % u32Mod) 0 with
        | none =>
          (.error .writeNullFailed,
            [.malloc (data.length + 1), .write (ptr % u32Mod) data,
             .writeByte ((ptr + data.length) % u32Mod) 0])
        | some m3 =>
          (.ok (ptr, m3),
            [.malloc (data.length + 1), .write (ptr % u32Mod) data,
             .writeByte ((ptr + data.length) % u32Mod) 0])

/-- Part of TranslateShader after the request buffer was written, up to but
not including the deferred free: invoke with the request pointer, null check
of the returned pointer, read of the null-terminated response (pointer
truncated to uint32 as in the source), unmarshal, and response processing.
The unmarshaller ju models encoding/json.Unmarshal of the Go standard library
into a map from strings to interface values; none is a parse failure. -/
def translateAfterAlloc (ju : List ℕ → Option (List (String × JVal))) (o : GuestOracle)
    (requestPtr : ℕ) (m2 : GuestMem) : Except TError Shader × List HostEvent :=
  match o.invokeRes requestPtr m2 with
  | .error _ => (.error .invokeCallFailed, [.invoke requestPtr])
  | .ok rm =>
    if rm.1 = 0 then (.error .invokeReturnedNull, [.invoke requestPtr])
    else
      match readStringFromMemory rm.2 (rm.1 % u32Mod) with
      | .error e => (.error e, [.invoke requestPtr])
      | .ok responseBytes =>
        match ju responseBytes with
        | none => (.error .unmarshalFailed, [.invoke requestPtr])
        | some responseMap => (processResponse responseMap, [.invoke requestPtr])

/-- State of a ShaderTranslator instance that the bridge logic depends on: the
closed flag.  The runtime, module and resolved function handles of the Go
struct are represented by the oracles passed to each operation. -/
structure ShaderTranslator where
  closed : Bool
deriving DecidableEq

/-- Method TranslateShader of transpiler.go.  After the closed check, the
request envelope is marshalled (json.Marshal of this payload cannot fail),
written into guest memory, and the guest is invoked; the deferred free of the
request pointer runs on every exit path after the allocation succeeded,
including the path where response parsing panics. -/
def TranslateShader (ju : List ℕ → Option (List (String × JVal))) (st : ShaderTranslator)
    (o : GuestOracle) (m : GuestMem) (shaderCode shaderType spec output : String) :
    Except TError Shader × List HostEvent :=
  if st.closed then (.error .closed, [])
  else
    match writeStringToMemory o m (requestBytes shaderCode shaderType spec output) with
    | (.error e, evs) => (.error e, evs)
    | (.ok pm, evs) =>
      ((translateAfterAlloc ju o pm.1 pm.2).1,
       evs ++ (translateAfterAlloc ju o pm.1 pm.2).2 ++ [.free pm.1])

/-- Guest and runtime behavior during one Close call: whether the finalizer
call errors (only logged by the source) and whether closing the wazero
runtime succeeds. -/
structure CloseOracle where
  finalizeOk : Bool
  runtimeCloseOk : Bool
deriving DecidableEq

/-- Calls Close makes, in order. -/
inductive CloseEvent where
  | finalize
  | runtimeClose
deriving DecidableEq

/-- Failure of Close. -/
inductive CloseErr where
  | runtimeCloseFailed
deriving DecidableEq

/-- Method Close of transpiler.go: a closed instance returns immediately;
otherwise the finalizer is called (its error only logged), the runtime is
closed, and only when that succeeds is the instance marked closed. -/
def Close (st : ShaderTranslator) (co : CloseOracle) :
    ShaderTranslator × Option CloseErr × List CloseEvent :=
  if st.closed then (st, none, [])
  else if co.runtimeCloseOk then (⟨true⟩, none, [.finalize, .runtimeClose])
  else (st, some .runtimeCloseFailed, [.finalize, .runtimeClose])

/-- Projection to the pointer of a successful writeStringToMemory result. -/
def wsPtr (r : Except TError (ℕ × GuestMem) × List HostEvent) : Option ℕ :=
  match r.1 with
  | .ok pm => some pm.1
  | .error _ => none

/-- Projection to the memory of a successful writeStringToMemory result. -/
def wsMem (r : Except TError (ℕ × GuestMem) × List HostEvent) : Option GuestMem :=
  match r.1 with
  | .ok pm => some pm.2
  | .error _ => none

/-- Pointers passed to the guest free function, in order of the calls. -/
def freeEvents (evs : List HostEvent) : List ℕ :=
  evs.filterMap fun e => match e with | .free p => some p | _ => none

/-- Sizes passed to the guest allocator, in order of the calls. -/
def mallocEvents (evs : List HostEvent) : List ℕ :=
  evs.filterMap fun e => match e with | .malloc n => some n | _ => none

/-- Specification shape for the processing order of newShader: the variables
of one category array in order, none when some entry panics.  Entries that
are not objects are skipped, as in the source loop. -/
def catParsed (category : String) : List JVal → Option (List ShaderVariable)
  | [] => some []
  | e :: rest =>
    match asObj e with
    | none => catParsed category rest
    | some variableMap =>
      match parseVariable category variableMap with
      | none => none
      | some v =>
        match catParsed category rest with
        | none => none
        | some l => some (v :: l)

/-- Specification shape: all parsed variables of all categories, flattened in
processing order. -/
def allParsed : List (String × JVal) → Option (List ShaderVariable)
  | [] => some []
  | c :: rest =>
    match asArr c.2 with
    | none => none
    | some entries =>
      match catParsed c.1 entries with
      | none => none
      | some l1 =>
        match allParsed rest with
        | none => none
        | some l2 => some (l1 ++ l2)

/-- Specification of the last-occurrence-wins policy of the spec: the last
variable in processing order whose original name is the given one. -/
def lastWithName (nm : String) : List ShaderVariable → Option ShaderVariable
  | [] => none
  | v :: rest =>
    match lastWithName nm rest with
    | some w => some w
    | none => if v.name = nm then some v else none

/-- Unmarshaller that fails on every input, for witnesses whose run never
reaches the parsing stage. -/
def ju0 : List ℕ → Option (List (String × JVal)) := fun _ => none

/-- Small zeroed guest memory for witnesses. -/
def mem512 : GuestMem := ⟨512, fun _ => 0⟩

/-- Tiny guest memory on which the request write cannot fit. -/
def memTiny : GuestMem := ⟨4, fun _ => 0⟩

/-- Guest behavior for witnesses: allocation at offset 8, invoke returning a
response pointer at offset 500 with memory unchanged. -/
def oracleOk : GuestOracle := ⟨fun _ => .ok 8, fun _ m => .ok (500, m)⟩

/-- Variable entry with a missing precision_enum field. -/
def c1VarFields : List (String × JVal) :=
  [("active", .bool true), ("is_row_major", .bool false), ("mapped_name", .str ("_un")),
   ("name", .str ("n")), ("static_use", .bool true), ("type_enum", .num 35666)]

/-- Response whose only variable entry lacks precision_enum. -/
def c1Response : List (String × JVal) :=
  [("result", .obj
     [("object_code", .str ("ok")),
      ("active_variables", .obj [("uniforms", .arr [.obj c1VarFields])])])]

/-- Unmarshaller that yields the response with the malformed variable entry. -/
def juC1 : List ℕ → Option (List (String × JVal)) := fun _ => some c1Response

/-- Well-formed variable entry whose numeric codes are non-integer floats. -/
def cAFields : List (String × JVal) :=
  [("active", .bool true), ("is_row_major", .bool false), ("mapped_name", .str ("_um")),
   ("name", .str ("m")), ("precision_enum", .num (mkRat 11 2)), ("static_use", .bool false),
   ("type_enum", .num 35666)]

/-- Parsed form of cAFields: the float codes narrowed to unsigned integers. -/
def cAVar : ShaderVariable :=
  { active := true, isRowMajor := false, mappedName := "_um", name := "m",
    precision := 5, staticUse := false, type := 35666, category := "uniforms" }

/-- First duplicate-name entry, category uniforms. -/
def c7Fields1 : List (String × JVal) :=
  [("active", .bool true), ("is_row_major", .bool false), ("mapped_name", .str ("_ua")),
   ("name", .str ("n")), ("precision_enum", .num 1), ("static_use", .bool true),
   ("type_enum", .num 2)]

/-- Second duplicate-name entry, category attributes. -/
def c7Fields2 : List (String × JVal) :=
  [("active", .bool true), ("is_row_major", .bool false), ("mapped_name", .str ("_ub")),
   ("name", .str ("n")), ("precision_enum", .num 3), ("static_use", .bool true),
   ("type_enum", .num 4)]

/-- Parsed first entry. -/
def c7v1 : ShaderVariable :=
  { active := true, isRowMajor := false, mappedName := "_ua", name := "n",
    precision := 1, staticUse := true, type := 2, category := "uniforms" }

/-- Parsed second entry. -/
def c7v2 : ShaderVariable :=
  { active := true, isRowMajor := false, mappedName := "_ub", name := "n",
    precision := 3, staticUse := true, type := 4, category := "attributes" }

/-- Response with the same original name in two categories. -/
def c7Response : List (String × JVal) :=
  [("result", .obj
     [("object_code", .str ("ok")),
      ("active_variables", .obj
        [("uniforms", .arr [.obj c7Fields1]), ("attributes", .arr [.obj c7Fields2])])])]

/-- Shader newShader builds from c7Response when the categories are processed
in list order. -/
def c7Shader : Shader :=
  { code := "ok", vars := mapInsert (mapInsert (fun _ => none) "n" c7v1) "n" c7v2 }

/-- Error object of the guest for the translation failure witness. -/
def c6Serr : List (String × JVal) :=
  [("message", .str ("bad")), ("data", .obj [("info_log", .str ("lg"))])]

/-- Response carrying the error object. -/
def c6Response : List (String × JVal) := [("error", .obj c6Serr)]

/-- Response whose error field is a string, with a well-formed result. -/
def c10Response : List (String × JVal) :=
  [("error", .str ("boom")),
   ("result", .obj [("object_code", .str ("ok")), ("active_variables", .obj [])])]

/-- Memory for the read witness: two nonzero bytes then zeros, size 6. -/
def mem5 : GuestMem := ⟨6, fun i => if i < 2 then 65 else 0⟩

set_option maxRecDepth 100000

theorem Close_ok_closed (st : ShaderTranslator) (co : CloseOracle) (st2 : ShaderTranslator)
    (evs : List CloseEvent) (h : Close st co = (st2, none, evs)) : st2.closed = true := by
  unfold Close at h
  by_cases hc : st.closed = true
  · simp [hc] at h
    rw [← h.1, hc]
  · by_cases hr : co.runtimeCloseOk = true
    · simp [hc, hr] at h
      rw [← h.1]
    · simp [hc, hr] at h

theorem bind_asBool (ov : Option JVal) (b : Bool) (h : ov.bind asBool = some b) :
    ov = some (.bool b) := by
  cases ov with
  | none => simp at h
  | some jv => cases jv <;> simp_all [asBool]

theorem bind_asStr (ov : Option JVal) (s : String) (h : ov.bind asStr = some s) :
    ov = some (.str s) := by
  cases ov with
  | none => simp at h
  | some jv => cases jv <;> simp_all [asStr]

theorem bind_asNum (ov : Option JVal) (q : ℚ) (h : ov.bind asNum = some q) :
    ov = some (.num q) := by
  cases ov with
  | none => simp at h
  | some jv => cases jv <;> simp_all [asNum]

theorem wsm_error_cases (o : GuestOracle) (m : GuestMem) (data : List ℕ) (e : TError)
    (evs : List HostEvent) (h : writeStringToMemory o m data = (.error e, evs)) :
    e = .mallocCallFailed ∨ e = .mallocReturnedNull ∨ e = .writeFailed ∨ e = .writeNullFailed := by
  unfold writeStringToMemory at h
  repeat' split at h
  all_goals simp_all

theorem rsm_error_cases (m : GuestMem) (ptr : ℕ) (e : TError)
    (h : readStringFromMemory m ptr = .error e) :
    e = .readFailed ∨ e = .notNullTerminated := by
  unfold readStringFromMemory at h
  repeat' split at h
  all_goals simp_all

theorem processResponse_ne_closed (responseMap : List (String × JVal)) :
    processResponse responseMap ≠ .error .closed := by
  unfold processResponse
  repeat' split
  all_goals simp

theorem translateAfterAlloc_ne_closed (ju : List ℕ → Option (List (String × JVal)))
    (o : GuestOracle) (p : ℕ) (m2 : GuestMem) :
    (translateAfterAlloc ju o p m2).1 ≠ .error .closed := by
  unfold translateAfterAlloc
  repeat' split
  all_goals intro hcon
  all_goals try simp at hcon
  · rename_i e heq
    subst hcon
    rcases rsm_error_cases _ _ _ heq with h1 | h1 <;> simp at h1
  · rename_i responseMap heq
    exact processResponse_ne_closed responseMap hcon

theorem wsm_ne_closed (o : GuestOracle) (m : GuestMem) (data : List ℕ) (e : TError)
    (evs : List HostEvent) (h : writeStringToMemory o m data = (.error e, evs)) :
    e ≠ .closed := by
  rcases wsm_error_cases o m data e evs h with h1 | h1 | h1 | h1 <;> subst h1 <;> simp

theorem TranslateShader_open_ne_closed (ju : List ℕ → Option (List (String × JVal)))
    (st : ShaderTranslator) (o : GuestOracle) (m : GuestMem) (a b c d : String)
    (h : st.closed = false) :
    (TranslateShader ju st o m a b c d).1 ≠ .error .closed := by
  unfold TranslateShader
  rw [h]
  simp only [Bool.false_eq_true, if_false]
  split
  · rename_i e evs heq
    intro hcon
    simp at hcon
    subst hcon
    exact wsm_ne_closed _ _ _ _ _ heq rfl
  · rename_i pm evs heq
    intro hcon
    simp at hcon
    exact translateAfterAlloc_ne_closed ju o pm.1 pm.2 hcon

/-- Claim C2: after a close call that completed (returned no error), every
subsequent translate call returns the translator-closed error with an empty
guest event trace: the guest module is not invoked, no memory is touched, and
the call returns an error value rather than crashing. -/
theorem translate_after_close_closedError (st : ShaderTranslator) (co : CloseOracle)
    (st2 : ShaderTranslator) (evs : List CloseEvent)
    (ju : List ℕ → Option (List (String × JVal))) (o : GuestOracle) (m : GuestMem)
    (a b c d : String) (h : Close st co = (st2, none, evs)) :
    TranslateShader ju st2 o m a b c d = (.error .closed, []) := by
  have hc := Close_ok_closed st co st2 evs h
  unfold TranslateShader
  simp [hc]

/-- Witness for claim C2: a concrete successful close followed by a concrete
translate call. -/
theorem translate_after_close_closedError_witness :
    TranslateShader ju0 ⟨true⟩ oracleOk mem512 ("") "v" "webgl" "essl" = (.error .closed, []) :=
  translate_after_close_closedError ⟨false⟩ ⟨true, true⟩ ⟨true⟩ [.finalize, .runtimeClose]
    ju0 oracleOk mem512 ("") "v" "webgl" "essl" (by decide)

/-- Counterexample for claim C3 as stated: when the first close fails to
release the runtime, the second close call is not a no-op: it calls the
finalizer and retries the runtime release. -/
theorem close_twice_after_failure_not_noop :
    (Close (Close ⟨false⟩ ⟨true, false⟩).1 ⟨true, false⟩).2.2 = [.finalize, .runtimeClose] := by
  decide

/-- Claim C3, amended: after a close call that completed without error, a
second close call is a no-op: it returns no error, performs no finalizer or
runtime-release call, and leaves the state unchanged. -/
theorem close_twice_after_success_noop (st : ShaderTranslator) (co co2 : CloseOracle)
    (st1 : ShaderTranslator) (evs : List CloseEvent) (h : Close st co = (st1, none, evs)) :
    Close st1 co2 = (st1, none, []) := by
  have hc := Close_ok_closed st co st1 evs h
  unfold Close
  simp [hc]

/-- Witness for the amended claim C3 at a concrete first close. -/
theorem close_twice_after_success_noop_witness :
    Close ⟨true⟩ ⟨false, false⟩ = (⟨true⟩, none, []) :=
  close_twice_after_success_noop ⟨false⟩ ⟨true, true⟩ ⟨false, false⟩ ⟨true⟩
    [.finalize, .runtimeClose] (by decide)

/-- Claim C9: when close fails to release the runtime, the translator is not
marked closed: the state is unchanged, a subsequent translate call does not
return the closed error, a subsequent close re-runs the finalizer and retries
the release, and the instance is marked closed exactly when that release
succeeds. -/
theorem close_failure_not_marked_closed (st : ShaderTranslator) (co : CloseOracle)
    (st2 : ShaderTranslator) (e : CloseErr) (evs : List CloseEvent)
    (h : Close st co = (st2, some e, evs)) :
    st2 = st ∧ st2.closed = false ∧
    (∀ ju o m a b c d, (TranslateShader ju st2 o m a b c d).1 ≠ .error .closed) ∧
    ∀ co2 : CloseOracle, (Close st2 co2).2.2 = [.finalize, .runtimeClose] ∧
      (Close st2 co2).1.closed = co2.runtimeCloseOk := by
  unfold Close at h
  by_cases hc : st.closed = true
  · simp [hc] at h
  · by_cases hr : co.runtimeCloseOk = true
    · simp [hc, hr] at h
    · simp only [Bool.not_eq_true] at hc
      simp [hc, hr] at h
      obtain ⟨h1, h2, h3⟩ := h
      have hst2 : st2.closed = false := by rw [← h1, hc]
      refine ⟨h1.symm, hst2, ?_, ?_⟩
      · intro ju o m a b c d
        exact TranslateShader_open_ne_closed ju st2 o m a b c d hst2
      · intro co2
        unfold Close
        by_cases hr2 : co2.runtimeCloseOk = true <;> simp [hst2, hr2]

/-- Witness for claim C9 at a concrete failing close. -/
theorem close_failure_not_marked_closed_witness :
    (⟨false⟩ : ShaderTranslator) = ⟨false⟩ ∧ (⟨false⟩ : ShaderTranslator).closed = false ∧
    (∀ ju o m a b c d, (TranslateShader ju ⟨false⟩ o m a b c d).1 ≠ .error .closed) ∧
    ∀ co2 : CloseOracle, (Close ⟨false⟩ co2).2.2 = [.finalize, .runtimeClose] ∧
      (Close ⟨false⟩ co2).1.closed = co2.runtimeCloseOk :=
  close_failure_not_marked_closed ⟨false⟩ ⟨true, false⟩ ⟨false⟩ .runtimeCloseFailed
    [.finalize, .runtimeClose] (by decide)

/-- Claim C6: when the response envelope carries an error object, the
response processing returns the single translation error carrying the guest
message and the attached info_log, and never a result value. -/
theorem translate_error_object_propagates (responseMap serr : List (String × JVal))
    (h : jlookup responseMap ("error") = some (.obj serr)) :
    processResponse responseMap =
      .error (.translationError (goStrOrEmpty (jlookup serr ("message")))
        (goStrOrEmpty (jlookup (goObjOrNil (jlookup serr ("data"))) "info_log"))) ∧
    ∀ sh, processResponse responseMap ≠ .ok sh := by
  have hb : (jlookup responseMap ("error")).bind asObj = some serr := by rw [h]; rfl
  unfold processResponse
  rw [hb]
  exact ⟨rfl, fun sh hcon => by simp at hcon⟩

/-- Witness for claim C6 at a concrete error object. -/
theorem translate_error_object_propagates_witness :
    processResponse c6Response =
      .error (.translationError (goStrOrEmpty (jlookup c6Serr ("message")))
        (goStrOrEmpty (jlookup (goObjOrNil (jlookup c6Serr ("data"))) "info_log"))) ∧
    ∀ sh, processResponse c6Response ≠ .ok sh :=
  translate_error_object_propagates c6Response c6Serr (by rfl)

/-- Claim C10: when the error field of the envelope is present but is not a
JSON object, the translation-failure branch is not taken: the response is
passed to newShader exactly as on the success path. -/
theorem nonobject_error_field_success_path (responseMap : List (String × JVal)) (v : JVal)
    (h : jlookup responseMap ("error") = some v) (hno : asObj v = none) :
    processResponse responseMap =
      match newShader responseMap with
      | none => .error .goPanic
      | some sh => .ok sh := by
  unfold processResponse
  rw [h, Option.some_bind, hno]

/-- Witness for claim C10 with a string-valued error field. -/
theorem nonobject_error_field_success_path_witness :
    processResponse c10Response =
      match newShader c10Response with
      | none => .error .goPanic
      | some sh => .ok sh :=
  nonobject_error_field_success_path c10Response (.str ("boom")) (by rfl) (by rfl)

/-- Counterexample for claim C1 as stated: a response whose variable entry
lacks precision_enum makes newShader panic (none), and a full translate call
on such a response ends in the goPanic outcome, a Go runtime panic escaping
TranslateShader, not a returned malformed-response error. -/
theorem missing_field_panics_not_error :
    newShader c1Response = none ∧
    (TranslateShader juC1 ⟨false⟩ oracleOk mem512 ("") "v" "webgl" "essl").1 = .error .goPanic :=
  ⟨rfl, rfl⟩

/-- Claim C1, amended: whenever the variable parser returns an entry, every
field was present in the raw object with its expected shape (so no missing or
mistyped field is replaced by a silent default), and the numeric type and
precision codes are narrowed from the float64 interchange values with the
uint conversion; a missing or mistyped field instead makes the parse panic,
which crashes the call rather than returning a malformed-response error. -/
theorem parseVariable_no_silent_defaults (category : String)
    (variableMap : List (String × JVal)) (v : ShaderVariable)
    (h : parseVariable category variableMap = some v) :
    jlookup variableMap ("active") = some (.bool v.active) ∧
    jlookup variableMap ("is_row_major") = some (.bool v.isRowMajor) ∧
    jlookup variableMap ("mapped_name") = some (.str v.mappedName) ∧
    jlookup variableMap ("name") = some (.str v.name) ∧
    (∃ q : ℚ, jlookup variableMap ("precision_enum") = some (.num q) ∧ v.precision = goUint q) ∧
    jlookup variableMap ("static_use") = some (.bool v.staticUse) ∧
    (∃ q : ℚ, jlookup variableMap ("type_enum") = some (.num q) ∧ v.type = goUint q) ∧
    v.category = category := by
  unfold parseVariable at h
  cases ha : (jlookup variableMap ("active")).bind asBool with
  | none => simp [ha] at h
  | some active =>
  simp only [ha] at h
  cases hb : (jlookup variableMap ("is_row_major")).bind asBool with
  | none => simp [hb] at h
  | some isRowMajor =>
  simp only [hb] at h
  cases hc : (jlookup variableMap ("mapped_name")).bind asStr with
  | none => simp [hc] at h
  | some mappedName =>
  simp only [hc] at h
  cases hd : (jlookup variableMap ("name")).bind asStr with
  | none => simp [hd] at h
  | some name =>
  simp only [hd] at h
  cases he : (jlookup variableMap ("precision_enum")).bind asNum with
  | none => simp [he] at h
  | some precision =>
  simp only [he] at h
  cases hf : (jlookup variableMap ("static_use")).bind asBool with
  | none => simp [hf] at h
  | some staticUse =>
  simp only [hf] at h
  cases hg : (jlookup variableMap ("type_enum")).bind asNum with
  | none => simp [hg] at h
  | some type =>
  simp only [hg] at h
  injection h with hv
  subst hv
  exact ⟨bind_asBool _ _ ha, bind_asBool _ _ hb, bind_asStr _ _ hc, bind_asStr _ _ hd,
    ⟨precision, bind_asNum _ _ he, rfl⟩, bind_asBool _ _ hf,
    ⟨type, bind_asNum _ _ hg, rfl⟩, rfl⟩

/-- Witness for the amended claim C1: a concrete entry whose precision code
arrives as the float 5.5 and is narrowed to 5. -/
theorem parseVariable_no_silent_defaults_witness :
    jlookup cAFields ("active") = some (.bool cAVar.active) ∧
    jlookup cAFields ("is_row_major") = some (.bool cAVar.isRowMajor) ∧
    jlookup cAFields ("mapped_name") = some (.str cAVar.mappedName) ∧
    jlookup cAFields ("name") = some (.str cAVar.name) ∧
    (∃ q : ℚ, jlookup cAFields ("precision_enum") = some (.num q) ∧ cAVar.precision = goUint q) ∧
    jlookup cAFields ("static_use") = some (.bool cAVar.staticUse) ∧
    (∃ q : ℚ, jlookup cAFields ("type_enum") = some (.num q) ∧ cAVar.type = goUint q) ∧
    cAVar.category = "uniforms" :=
  parseVariable_no_silent_defaults ("uniforms") cAFields cAVar (by decide)

theorem foldl_mapInsert_lookup (l : List ShaderVariable) (acc : String → Option ShaderVariable)
    (nm : String) :
    (l.foldl (fun m v => mapInsert m v.name v) acc) nm =
      match lastWithName nm l with
      | some w => some w
      | none => acc nm := by
  induction l generalizing acc with
  | nil => rfl
  | cons v rest ih =>
    simp only [List.foldl_cons]
    rw [ih (mapInsert acc v.name v)]
    simp only [lastWithName]
    rcases hlw : lastWithName nm rest with _ | w
    · simp only [hlw, mapInsert]
      by_cases hn : v.name = nm
      · simp [hn]
      · simp [hn, Ne.symm hn]
    · simp only [hlw]

theorem lastWithName_name (nm : String) (l : List ShaderVariable) (v : ShaderVariable)
    (h : lastWithName nm l = some v) : v.name = nm := by
  induction l with
  | nil => simp [lastWithName] at h
  | cons w rest ih =>
    unfold lastWithName at h
    rcases hlw : lastWithName nm rest with _ | u
    · rw [hlw] at h
      by_cases hn : w.name = nm
      · rw [if_pos hn] at h
        injection h with h2
        rw [← h2]; exact hn
      · rw [if_neg hn] at h; cases h
    · rw [hlw] at h
      injection h with h2
      subst h2
      exact ih hlw

theorem processEntries_eq (category : String) (es : List JVal)
    (acc : String → Option ShaderVariable) :
    processEntries category es acc =
      (catParsed category es).map (fun l => l.foldl (fun m v => mapInsert m v.name v) acc) := by
  induction es generalizing acc with
  | nil => rfl
  | cons e rest ih =>
    show (match asObj e with
          | none => processEntries category rest acc
          | some vm =>
            match parseVariable category vm with
            | none => none
            | some v => processEntries category rest (mapInsert acc v.name v)) =
      Option.map (fun l : List ShaderVariable => l.foldl (fun m v => mapInsert m v.name v) acc)
        (match asObj e with
         | none => catParsed category rest
         | some vm =>
           match parseVariable category vm with
           | none => none
           | some v =>
             match catParsed category rest with
             | none => none
             | some l => some (v :: l))
    rcases hae : asObj e with _ | vm
    · exact ih acc
    · rcases hpv : parseVariable category vm with _ | v
      · simp only [hpv]
        rfl
      · simp only [hpv]
        rw [ih (mapInsert acc v.name v)]
        rcases hcp : catParsed category rest with _ | l <;> simp [hcp]

theorem processCategories_eq (cats : List (String × JVal))
    (acc : String → Option ShaderVariable) :
    processCategories cats acc =
      (allParsed cats).map (fun l => l.foldl (fun m v => mapInsert m v.name v) acc) := by
  induction cats generalizing acc with
  | nil => rfl
  | cons cseg rest ih =>
    show (match asArr cseg.2 with
          | none => none
          | some entries =>
            match processEntries cseg.1 entries acc with
            | none => none
            | some acc2 => processCategories rest acc2) =
      Option.map (fun l : List ShaderVariable => l.foldl (fun m v => mapInsert m v.name v) acc)
        (match asArr cseg.2 with
         | none => none
         | some entries =>
           match catParsed cseg.1 entries with
           | none => none
           | some l1 =>
             match allParsed rest with
             | none => none
             | some l2 => some (l1 ++ l2))
    rcases har : asArr cseg.2 with _ | entries
    · rfl
    · show (match processEntries cseg.1 entries acc with
            | none => none
            | some acc2 => processCategories rest acc2) =
        Option.map (fun l : List ShaderVariable => l.foldl (fun m v => mapInsert m v.name v) acc)
          (match catParsed cseg.1 entries with
           | none => none
           | some l1 =>
             match allParsed rest with
             | none => none
             | some l2 => some (l1 ++ l2))
      rw [processEntries_eq]
      rcases hcp : catParsed cseg.1 entries with _ | l1
      · simp [hcp]
      · simp only [hcp, Option.map_some']
        rw [ih]
        rcases hall : allParsed rest with _ | l2
        · simp [hall]
        · simp [hall, List.foldl_append]

/-- Claim C7: for every successfully parsed response, the variable mapping
agrees at every name with the last variable of that original name in
processing order, and every key of the mapping is the original name of the
entry stored under it. -/
theorem newShader_unique_keys_last_wins (response : List (String × JVal)) (sh : Shader)
    (h : newShader response = some sh) :
    ∃ l, allParsed (goObjOrNil (jlookup (goObjOrNil (jlookup response ("result")))
        "active_variables")) = some l ∧
      (∀ nm, sh.vars nm = lastWithName nm l) ∧
      (∀ nm v, sh.vars nm = some v → v.name = nm) := by
  unfold newShader at h
  rw [processCategories_eq] at h
  rcases hall : allParsed (goObjOrNil (jlookup (goObjOrNil (jlookup response ("result")))
      "active_variables")) with _ | l
  · rw [hall] at h; simp at h
  · rw [hall] at h
    simp only [Option.map_some'] at h
    rcases hcode : (jlookup (goObjOrNil (jlookup response ("result"))) "object_code").bind asStr
      with _ | code
    · rw [hcode] at h; simp at h
    · rw [hcode] at h
      injection h with h2
      subst h2
      refine ⟨l, rfl, ?_, ?_⟩
      · intro nm
        show (l.foldl (fun m (v : ShaderVariable) => mapInsert m v.name v) (fun _ => none)) nm = lastWithName nm l
        rw [foldl_mapInsert_lookup]
        rcases lastWithName nm l with _ | w <;> rfl
      · intro nm v hv
        replace hv : (l.foldl (fun m (w : ShaderVariable) => mapInsert m w.name w) (fun _ => none)) nm = some v := hv
        rw [foldl_mapInsert_lookup] at hv
        rcases hlw : lastWithName nm l with _ | w
        · rw [hlw] at hv; cases hv
        · rw [hlw] at hv
          injection hv with hv2
          subst hv2
          exact lastWithName_name nm l _ hlw

/-- Witness for claim C7: a response with the same original name in two
categories; the mapping keeps the later entry. -/
theorem newShader_unique_keys_last_wins_witness :
    ∃ l, allParsed (goObjOrNil (jlookup (goObjOrNil (jlookup c7Response ("result")))
        "active_variables")) = some l ∧
      (∀ nm, c7Shader.vars nm = lastWithName nm l) ∧
      (∀ nm v, c7Shader.vars nm = some v → v.name = nm) :=
  newShader_unique_keys_last_wins c7Response c7Shader (by rfl)

theorem scanZero_none_iff (l : List ℕ) : scanZero l = none ↔ ∀ x ∈ l, x ≠ 0 := by
  induction l with
  | nil => simp [scanZero]
  | cons b rest ih =>
    unfold scanZero
    by_cases hb : b = 0
    · simp [hb]
    · simp [hb, Option.map_eq_none', ih]

theorem scanZero_some (l : List ℕ) (i : ℕ) (h : scanZero l = some i) :
    i < l.length ∧ l.getD i 1 = 0 ∧ ∀ j, j < i → l.getD j 1 ≠ 0 := by
  induction l generalizing i with
  | nil => simp [scanZero] at h
  | cons b rest ih =>
    unfold scanZero at h
    by_cases hb : b = 0
    · rw [if_pos hb] at h
      injection h with h2
      subst h2
      exact ⟨by simp, by simpa using hb, by omega⟩
    · rw [if_neg hb] at h
      rcases hsz : scanZero rest with _ | i0
      · rw [hsz] at h; cases h
      · rw [hsz] at h
        have hii : i = i0 + 1 := by simpa using h.symm
        subst hii
        obtain ⟨h1, h2, h3⟩ := ih i0 hsz
        refine ⟨by simpa using h1, by simpa using h2, ?_⟩
        intro j hj
        cases j with
        | zero => simpa using hb
        | succ j0 => simpa using h3 j0 (by omega)

theorem scanZero_isSome_of_mem (l : List ℕ) (h : 0 ∈ l) : ∃ i, scanZero l = some i := by
  rcases hs : scanZero l with _ | i
  · rw [scanZero_none_iff] at hs
    exact absurd rfl (hs 0 h)
  · exact ⟨i, rfl⟩

theorem sub32_eq (a b : ℕ) (hb : b ≤ a) (ha : a < u32Mod) : sub32 a b = a - b := by
  unfold sub32
  rw [Nat.mod_eq_of_lt ha, Nat.mod_eq_of_lt (lt_of_le_of_lt hb ha)]
  have h2 : a + u32Mod - b = (a - b) + u32Mod := by omega
  rw [h2, Nat.add_mod_right]
  exact Nat.mod_eq_of_lt (by omega)

theorem rangeMap_getD (n : ℕ) (f : ℕ → ℕ) (k : ℕ) (d : ℕ) (hk : k < n) :
    ((List.range n).map f).getD k d = f k := by
  rw [List.getD_eq_getElem?_getD]
  simp [List.getElem?_map, List.getElem?_range, hk]

/-- Claim C5: the response read from guest memory is exactly the bytes from
the returned offset up to but excluding the first zero byte at or after it
(they match memory pointwise, none of them is zero, and the byte right after
them is zero and lies inside the region); when no zero byte occurs before the
end of the memory region the read is the hard not-null-terminated failure,
and when a zero byte exists the read succeeds. -/
theorem readStringFromMemory_spec (m : GuestMem) (ptr : ℕ)
    (hp : ptr ≤ m.size) (hs : m.size < u32Mod) :
    (∀ bs, readStringFromMemory m ptr = .ok bs →
       (∀ k, k < bs.length → bs.getD k 1 = m.byteAt (ptr + k) ∧ m.byteAt (ptr + k) ≠ 0) ∧
       ptr + bs.length < m.size ∧ m.byteAt (ptr + bs.length) = 0) ∧
    ((∀ i, ptr ≤ i → i < m.size → m.byteAt i ≠ 0) →
       readStringFromMemory m ptr = .error .notNullTerminated) ∧
    ((∃ i, ptr ≤ i ∧ i < m.size ∧ m.byteAt i = 0) →
       ∃ bs, readStringFromMemory m ptr = .ok bs) := by
  have hcount : sub32 m.size ptr = m.size - ptr := sub32_eq _ _ hp hs
  have hread : memRead m ptr (sub32 m.size ptr) =
      some ((List.range (m.size - ptr)).map fun i => m.byteAt (ptr + i)) := by
    rw [hcount]
    unfold memRead
    rw [if_pos (by omega)]
  have hlen : ((List.range (m.size - ptr)).map fun i => m.byteAt (ptr + i)).length =
      m.size - ptr := by simp
  refine ⟨?_, ?_, ?_⟩
  · intro bs hok
    unfold readStringFromMemory at hok
    rw [hread] at hok
    simp only [] at hok
    rcases hsz : scanZero ((List.range (m.size - ptr)).map fun i => m.byteAt (ptr + i))
      with _ | i
    · rw [hsz] at hok; cases hok
    · rw [hsz] at hok
      injection hok with hok2
      obtain ⟨h1, h2, h3⟩ := scanZero_some _ _ hsz
      rw [hlen] at h1
      have hbs : bs.length = i := by
        rw [← hok2, List.length_take, hlen]
        omega
      constructor
      · intro k hk
        rw [hbs] at hk
        have hkn : k < m.size - ptr := by omega
        have hbk : bs.getD k 1 = m.byteAt (ptr + k) := by
          rw [← hok2, List.getD_eq_getElem?_getD, List.getElem?_take_of_lt hk,
            ← List.getD_eq_getElem?_getD]
          exact rangeMap_getD _ _ _ _ hkn
        refine ⟨hbk, ?_⟩
        have := h3 k hk
        rw [rangeMap_getD _ _ _ _ hkn] at this
        exact this
      · have hin : i < m.size - ptr := h1
        rw [rangeMap_getD _ _ _ _ hin] at h2
        rw [hbs]
        exact ⟨by omega, h2⟩
  · intro hall
    unfold readStringFromMemory
    rw [hread]
    simp only []
    have hnone : scanZero ((List.range (m.size - ptr)).map fun i => m.byteAt (ptr + i)) = none := by
      rw [scanZero_none_iff]
      intro x hx
      simp only [List.mem_map, List.mem_range] at hx
      obtain ⟨k, hk, hfk⟩ := hx
      rw [← hfk]
      exact hall (ptr + k) (by omega) (by omega)
    rw [hnone]
  · intro hex
    obtain ⟨i, hi1, hi2, hi3⟩ := hex
    unfold readStringFromMemory
    rw [hread]
    simp only []
    have hmem : (0 : ℕ) ∈ (List.range (m.size - ptr)).map fun i => m.byteAt (ptr + i) := by
      simp only [List.mem_map, List.mem_range]
      exact ⟨i - ptr, by omega, by rw [show ptr + (i - ptr) = i by omega]; exact hi3⟩
    obtain ⟨j, hj⟩ := scanZero_isSome_of_mem _ hmem
    rw [hj]
    exact ⟨_, rfl⟩

/-- Witness for claim C5 on a small concrete memory. -/
theorem readStringFromMemory_spec_witness :
    (∀ bs, readStringFromMemory mem5 0 = .ok bs →
       (∀ k, k < bs.length → bs.getD k 1 = mem5.byteAt (0 + k) ∧ mem5.byteAt (0 + k) ≠ 0) ∧
       0 + bs.length < mem5.size ∧ mem5.byteAt (0 + bs.length) = 0) ∧
    ((∀ i, 0 ≤ i → i < mem5.size → mem5.byteAt i ≠ 0) →
       readStringFromMemory mem5 0 = .error .notNullTerminated) ∧
    ((∃ i, 0 ≤ i ∧ i < mem5.size ∧ mem5.byteAt i = 0) →
       ∃ bs, readStringFromMemory mem5 0 = .ok bs) :=
  readStringFromMemory_spec mem5 0 (by decide) (by decide)

theorem memWrite_eq (m : GuestMem) (p : ℕ) (d : List ℕ) (m2 : GuestMem)
    (h : memWrite m p d = some m2) :
    p + d.length ≤ m.size ∧ m2.size = m.size ∧
    m2.byteAt = fun i => if p ≤ i ∧ i < p + d.length then d.getD (i - p) 0 else m.byteAt i := by
  unfold memWrite at h
  split at h
  next hle =>
    injection h with h2
    subst h2
    exact ⟨hle, rfl, rfl⟩
  next => cases h

theorem memWriteByte_eq (m : GuestMem) (p b : ℕ) (m2 : GuestMem)
    (h : memWriteByte m p b = some m2) :
    p < m.size ∧ m2.size = m.size ∧
    m2.byteAt = fun i => if i = p then b else m.byteAt i := by
  unfold memWriteByte at h
  split at h
  next hlt =>
    injection h with h2
    subst h2
    exact ⟨hlt, rfl, rfl⟩
  next => cases h

theorem getD_range_map (l : List ℕ) :
    (List.range l.length).map (fun i => l.getD i 0) = l := by
  induction l with
  | nil => rfl
  | cons a t ih =>
    show (List.range (t.length + 1)).map (fun i => (a :: t).getD i 0) = a :: t
    rw [List.range_succ_eq_map, List.map_cons, List.map_map]
    have hcomp : ((fun i => (a :: t).getD i 0) ∘ Nat.succ) = fun i => t.getD i 0 := rfl
    rw [hcomp, ih]
    rfl

/-- Claim C4: on every translate call whose request write succeeds, the
guest events are exactly one allocation of size len(request)+1 followed by
the write of the serialized envelope at the returned offset and the zero
terminator right after it; the resulting guest memory holds exactly the
serialized envelope bytes followed by one zero byte at that offset; and the
translate call begins with that allocation.  The serialized envelope is
requestBytes: the JSON envelope with base64 shader source fixed by the
source. -/
theorem translate_writes_exact_request (o : GuestOracle) (m : GuestMem) (a b c d : String)
    (p : ℕ) (hs : m.size < u32Mod)
    (hw : wsPtr (writeStringToMemory o m (requestBytes a b c d)) = some p) :
    (writeStringToMemory o m (requestBytes a b c d)).2 =
      [.malloc ((requestBytes a b c d).length + 1),
       .write (p % u32Mod) (requestBytes a b c d),
       .writeByte (p % u32Mod + (requestBytes a b c d).length) 0] ∧
    (∀ m2, wsMem (writeStringToMemory o m (requestBytes a b c d)) = some m2 →
       memRead m2 (p % u32Mod) ((requestBytes a b c d).length + 1) =
         some (requestBytes a b c d ++ [0])) ∧
    ∀ ju st, st.closed = false →
      (TranslateShader ju st o m a b c d).2.head? =
        some (.malloc ((requestBytes a b c d).length + 1)) := by
  generalize hreq : requestBytes a b c d = rb at hw ⊢
  unfold writeStringToMemory at hw
  rcases hm : o.mallocRes (rb.length + 1) with u | ptr
  · rw [hm] at hw; simp [wsPtr] at hw
  · rw [hm] at hw
    simp only [] at hw
    by_cases hp0 : ptr = 0
    · rw [if_pos hp0] at hw; simp [wsPtr] at hw
    · rw [if_neg hp0] at hw
      rcases hmw : memWrite m (ptr % u32Mod) rb with _ | m2w
      · rw [hmw] at hw; simp [wsPtr] at hw
      · rw [hmw] at hw
        simp only [] at hw
        rcases hwb : memWriteByte m2w ((ptr + rb.length) % u32Mod) 0 with _ | m3
        · rw [hwb] at hw; simp [wsPtr] at hw
        · rw [hwb] at hw
          simp only [wsPtr] at hw
          injection hw with hw2
          subst hw2
          obtain ⟨hb1, hsz2, hfn2⟩ := memWrite_eq _ _ _ _ hmw
          obtain ⟨hb2, hsz3, hfn3⟩ := memWriteByte_eq _ _ _ _ hwb
          have hmod : (ptr + rb.length) % u32Mod = ptr % u32Mod + rb.length := by
            have hlt : ptr % u32Mod + rb.length < u32Mod := by omega
            rw [Nat.add_mod, Nat.mod_eq_of_lt (show rb.length < u32Mod by omega),
              Nat.mod_eq_of_lt hlt]
          have hws : writeStringToMemory o m rb =
              (.ok (ptr, m3),
               [.malloc (rb.length + 1), .write (ptr % u32Mod) rb,
                .writeByte ((ptr + rb.length) % u32Mod) 0]) := by
            unfold writeStringToMemory
            rw [hm]
            simp only []
            rw [if_neg hp0, hmw]
            simp only []
            rw [hwb]
          refine ⟨?_, ?_, ?_⟩
          · rw [hws, hmod]
          · intro m2 hm2
            rw [hws] at hm2
            simp only [wsMem] at hm2
            injection hm2 with hm22
            subst hm22
            have hbound : ptr % u32Mod + (rb.length + 1) ≤ m3.size := by
              rw [hsz3, hsz2]
              rw [hmod, hsz2] at hb2
              omega
            unfold memRead
            rw [if_pos hbound]
            congr 1
            rw [List.range_succ, List.map_append]
            simp only [List.map_cons, List.map_nil]
            have hlast : m3.byteAt (ptr % u32Mod + rb.length) = 0 := by
              rw [hfn3]
              simp [hmod]
            have hmid : (List.range rb.length).map
                (fun i => m3.byteAt (ptr % u32Mod + i)) = rb := by
              have hstep : ∀ i ∈ List.range rb.length,
                  m3.byteAt (ptr % u32Mod + i) = rb.getD i 0 := by
                intro i hi
                rw [List.mem_range] at hi
                rw [hfn3]
                simp only []
                have hne : ptr % u32Mod + i ≠ (ptr + rb.length) % u32Mod := by
                  rw [hmod]; omega
                rw [if_neg hne, hfn2]
                simp only []
                have hcond : ptr % u32Mod ≤ ptr % u32Mod + i ∧
                    ptr % u32Mod + i < ptr % u32Mod + rb.length := by omega
                rw [if_pos hcond]
                congr 1
                omega
              rw [List.map_eq_map_iff.mpr hstep]
              exact getD_range_map rb
            rw [hmid, hlast]
          · intro ju st hst
            unfold TranslateShader
            rw [hst]
            simp only [Bool.false_eq_true, if_false]
            rw [hreq, hws]
            simp only []
            rfl

/-- Witness for claim C4 at a concrete oracle and memory. -/
theorem translate_writes_exact_request_witness :
    (writeStringToMemory oracleOk mem512 (requestBytes ("") "" "" "")).2 =
      [.malloc ((requestBytes ("") "" "" "").length + 1),
       .write (8 % u32Mod) (requestBytes ("") "" "" ""),
       .writeByte (8 % u32Mod + (requestBytes ("") "" "" "").length) 0] ∧
    (∀ m2, wsMem (writeStringToMemory oracleOk mem512 (requestBytes ("") "" "" "")) = some m2 →
       memRead m2 (8 % u32Mod) ((requestBytes ("") "" "" "").length + 1) =
         some (requestBytes ("") "" "" "" ++ [0])) ∧
    ∀ ju st, st.closed = false →
      (TranslateShader ju st oracleOk mem512 ("") "" "" "").2.head? =
        some (.malloc ((requestBytes ("") "" "" "").length + 1)) :=
  translate_writes_exact_request oracleOk mem512 ("") "" "" "" 8 (by decide) (by decide)

theorem freeEvents_append (xs ys : List HostEvent) :
    freeEvents (xs ++ ys) = freeEvents xs ++ freeEvents ys :=
  List.filterMap_append xs ys _

theorem wsm_no_free (o : GuestOracle) (m : GuestMem) (data : List ℕ) :
    freeEvents (writeStringToMemory o m data).2 = [] := by
  unfold writeStringToMemory
  repeat' split
  all_goals rfl

theorem taa_no_free (ju : List ℕ → Option (List (String × JVal))) (o : GuestOracle)
    (p : ℕ) (m2 : GuestMem) : freeEvents (translateAfterAlloc ju o p m2).2 = [] := by
  unfold translateAfterAlloc
  repeat' split
  all_goals rfl

/-- Claim C8, amended: on every translate call on an open translator whose
request write phase succeeds, the host passes exactly one pointer to the
guest free function, namely the request pointer returned by the allocator
(in particular the response pointer is never freed); when the write phase
fails after the allocation, the buffer is not released. -/
theorem translate_frees_request_exactly_once (ju : List ℕ → Option (List (String × JVal)))
    (st : ShaderTranslator) (o : GuestOracle) (m : GuestMem) (a b c d : String) (p : ℕ)
    (hst : st.closed = false)
    (hw : wsPtr (writeStringToMemory o m (requestBytes a b c d)) = some p) :
    freeEvents (TranslateShader ju st o m a b c d).2 = [p] := by
  generalize hreq : requestBytes a b c d = rb at hw
  unfold TranslateShader
  rw [hst]
  simp only [Bool.false_eq_true, if_false]
  rw [hreq]
  rcases hws : writeStringToMemory o m rb with ⟨res, evs⟩
  rw [hws] at hw
  rcases res with e | pm
  · simp [wsPtr] at hw
  · simp only [wsPtr] at hw
    injection hw with hw2
    subst hw2
    simp only []
    have h1 : freeEvents evs = [] := by
      have h0 := wsm_no_free o m rb
      rw [hws] at h0
      exact h0
    have h2 : freeEvents (translateAfterAlloc ju o pm.1 pm.2).2 = [] :=
      taa_no_free ju o pm.1 pm.2
    rw [freeEvents_append, freeEvents_append, h1, h2]
    rfl

/-- Witness for the amended claim C8 at a concrete successful write. -/
theorem translate_frees_request_exactly_once_witness :
    freeEvents (TranslateShader ju0 ⟨false⟩ oracleOk mem512 ("") "" "" "").2 = [8] :=
  translate_frees_request_exactly_once ju0 ⟨false⟩ oracleOk mem512 ("") "" "" "" 8
    (by decide) (by decide)

/-- Counterexample for claim C8 as stated: with a tiny guest memory the
allocation succeeds but the memory write fails, translate returns the write
failure, and the allocated request buffer is never freed. -/
theorem translate_leaks_request_buffer_on_write_failure :
    (TranslateShader ju0 ⟨false⟩ oracleOk memTiny ("") "v" "webgl" "essl").1 = .error .writeFailed ∧
    mallocEvents (TranslateShader ju0 ⟨false⟩ oracleOk memTiny ("") "v" "webgl" "essl").2 =
      [(requestBytes ("") "v" "webgl" "essl").length + 1] ∧
    freeEvents (TranslateShader ju0 ⟨false⟩ oracleOk memTiny ("") "v" "webgl" "essl").2 = [] :=
  ⟨rfl, by decide, by decide⟩
